import Mathlib

/-!
Verification of the Chord DHT node implementation (Go sources under
`Lab2/Node/tools.go` and `utils/tools.go`).

The Go code is shallowly embedded: `big.Int` identifiers become `Int`
(Go's `big.Int.Mod` is Euclidean, matching `Int.emod` for a positive
modulus), SHA-1 (`strHash`) becomes an abstract parameter
`h : String → Int`, and every remote procedure call becomes a lookup in
an explicit network environment (`ChordEnv`).  `rpc.Dial("tcp", "")` on
the empty address always fails in Go, so the call wrappers return
`none` for the empty address unconditionally.
-/

/-- `m = 6`: the Chord space has `2^6 = 64` identifiers
(`var m = 6` in tools.go). -/
def chordM : Nat := 6

/-- `fingerTableSize = 6` (`var fingerTableSize = 6` in tools.go). -/
def fingerTableSize : Nat := 6

/-- `hashMod = 2^m` (`var hashMod = ...Exp(2, m, nil)` in tools.go). -/
def hashMod : Int := 2 ^ chordM

/-- Embedding of `func between(start, elt, end *big.Int, inclusive bool) bool`
(tools.go lines 675-681; the copy in `utils/tools.go` lines 201-207 is
identical).  `end` is a Lean keyword, so the third argument is `ed`. -/
def between (start elt ed : Int) (inclusive : Bool) : Bool :=
  if ed > start then
    (decide (start < elt) && decide (elt < ed)) || (inclusive && decide (elt = ed))
  else
    decide (start < elt) || decide (elt < ed) || (inclusive && decide (elt = ed))

/-- The arc-membership predicate exactly as claim C1 words it: the open
interval `(start, ed)` when `ed > start`, the wrapped set
`(start, 2^m) ∪ [0, ed)` when `ed ≤ start`, extended with `elt = ed`
when `inclusive` is true. -/
def onClockwiseArc (start elt ed : Int) (inclusive : Bool) : Prop :=
  (if ed > start then start < elt ∧ elt < ed
   else (start < elt ∧ elt < 2 ^ chordM) ∨ (0 ≤ elt ∧ elt < ed))
  ∨ (inclusive = true ∧ elt = ed)

instance (start elt ed : Int) (inclusive : Bool) :
    Decidable (onClockwiseArc start elt ed inclusive) := by
  unfold onClockwiseArc
  infer_instance

/-- C1: for identifiers inside `[0, 2^m)`, `between` decides exactly the
clockwise-arc membership described by the spec, and the three concrete
examples from the spec hold in the size-64 space. -/
theorem between_matches_clockwise_arc (s e t : Int) (incl : Bool)
    (hs : 0 ≤ s ∧ s < 2 ^ chordM) (he : 0 ≤ e ∧ e < 2 ^ chordM)
    (ht : 0 ≤ t ∧ t < 2 ^ chordM) :
    (between s e t incl = true ↔ onClockwiseArc s e t incl)
    ∧ between 10 0 5 false = true
    ∧ between 10 7 5 false = false
    ∧ between 10 5 5 true = true := by
  refine ⟨?_, by decide, by decide, by decide⟩
  unfold between onClockwiseArc
  obtain ⟨he1, he2⟩ := he
  cases incl <;> by_cases hts : t > s <;> simp [hts] <;> omega

/-- Witness for C1 at `start = 10`, `elt = 0`, `end = 5`,
`inclusive = false` in the size-64 space. -/
theorem between_matches_clockwise_arc_witness :
    (between 10 0 5 false = true ↔ onClockwiseArc 10 0 5 false)
    ∧ between 10 0 5 false = true
    ∧ between 10 7 5 false = false
    ∧ between 10 5 5 true = true :=
  between_matches_clockwise_arc 10 0 5 false
    (by decide) (by decide) (by decide)

/-- Counterexample to C7: in the degenerate case `start = end` with
`inclusive` set, `between(start, start, end, inclusive)` returns `true`,
not `false` as the claim states (at `start = elt = end = 5`). -/
theorem between_start_included_when_degenerate :
    between 5 5 5 true = true := by decide

/-- C7 amended: `between(start, start, end, inclusive)` is `false`
except exactly in the degenerate case `start = end` with
`inclusive = true`, where the inclusive end coincides with the start
and the call returns `true`. -/
theorem between_start_not_included (s t : Int) (incl : Bool) :
    between s s t incl = (incl && decide (s = t)) := by
  unfold between
  by_cases hts : t > s
  · have hne : ¬(s = t) := by omega
    simp [hts, hne]
  · have hlt : ¬(s < t) := by omega
    simp [hts, hlt]

/-- C8: the inclusive variant of `between` is the exclusive variant
extended by the endpoint test `elt = end`. -/
theorem between_inclusive_eq_exclusive_or_end (s e t : Int) :
    between s e t true = (between s e t false || decide (e = t)) := by
  unfold between
  by_cases hts : t > s
  · simp [hts, Bool.or_assoc]
  · simp [hts, Bool.or_assoc]

/-! ## Node state (tools.go lines 29-69) -/

/-- `type NodeAddress string`. -/
abbrev NodeAddress := String

/-- `type fingerEntry struct` (lines 36-39).  The Go code stores
`Id` as the big-endian bytes of a `big.Int`; the model keeps the
numeric value. -/
structure fingerEntry where
  Id : Int
  Address : NodeAddress
  deriving Repr, DecidableEq

/-- The `Node` record (lines 41-69).  The RSA key pair and the file
`Bucket` are outside every claim under verification and carry no
protocol state, so they are not modelled. -/
structure Node where
  Name : String
  Identifier : Int
  Address : NodeAddress
  FingerTable : List fingerEntry
  next : Int
  Predecessor : NodeAddress
  Successors : List NodeAddress
  deriving Repr, DecidableEq

/-- `type Arguments struct` (lines 551-562).  `Successors` is a Go
`int`; `make([]NodeAddress, r)` panics for negative `r`, so the model
takes a natural number. -/
structure Arguments where
  Address : NodeAddress
  Port : Int
  JoinAddress : NodeAddress
  JoinPort : Int
  Stabilize : Int
  FixFingers : Int
  CheckPred : Int
  Successors : Nat
  ClientName : String

/-! ## The network environment

Every remote call in the Go code goes through `ChordCall`, which dials
the target address and fails with an error on dial or call failure.  A
`ChordEnv` gives, per remote method, the reply each address would
produce; `none` is a transport (or remote) error.  Dialing the empty
address `""` always fails in Go (`rpc.Dial("tcp", "")` returns a
"missing address" error), so the call wrappers force `none` there. -/

structure ChordEnv where
  getName : NodeAddress → Option String
  getSuccessorList : NodeAddress → Option (List NodeAddress)
  getPredecessor : NodeAddress → Option NodeAddress
  findSuccessor : NodeAddress → Int → Option (Bool × NodeAddress)

/-- `ChordCall(addr, "Node.GetNameRPC", "", &reply)`. -/
def callGetName (env : ChordEnv) (addr : NodeAddress) : Option String :=
  if addr = "" then none else env.getName addr

/-- `ChordCall(addr, "Node.GetSuccessorListRPC", ...)`.  The remote
handler never fails, so `none` is a transport error. -/
def callGetSuccessorList (env : ChordEnv) (addr : NodeAddress) :
    Option (List NodeAddress) :=
  if addr = "" then none else env.getSuccessorList addr

/-- `ChordCall(addr, "Node.GetPredecessorRPC", ...)`.  The remote
handler returns an error when its predecessor is empty (lines 253-261),
so `none` covers both transport failure and an empty remote
predecessor. -/
def callGetPredecessor (env : ChordEnv) (addr : NodeAddress) :
    Option NodeAddress :=
  if addr = "" then none else env.getPredecessor addr

/-- `ChordCall(addr, "Node.FindSuccessorRPC", id, &reply)`. -/
def callFindSuccessor (env : ChordEnv) (addr : NodeAddress) (id : Int) :
    Option (Bool × NodeAddress) :=
  if addr = "" then none else env.findSuccessor addr id

/-- `GetNameRPC` leaves the reply variable untouched on failure, and
the callers that ignore the returned error (`findSuccessor`,
`closePrecedingNode`) keep the initial value `""` in that case. -/
def resolveName (env : ChordEnv) (addr : NodeAddress) : String :=
  (callGetName env addr).getD ""

/-! ## Node construction (tools.go lines 82-128) -/

/-- `func (node *Node) initFingerTable()` (lines 108-120): slot `i`
gets `id = (identifier + 2^i) mod 2^m` and the node's own address. -/
def initFingerTable (node : Node) : Node :=
  { node with
    FingerTable := (List.range fingerTableSize).map fun i =>
      { Id := (node.Identifier + 2 ^ i) % hashMod, Address := node.Address } }

/-- `func (node *Node) initSuccessors()` (lines 122-128): every slot is
set to the empty sentinel. -/
def initSuccessors (node : Node) : Node :=
  { node with Successors := node.Successors.map fun _ => "" }

/-- `func NewNode(args Arguments) *Node` (lines 82-102).  The RSA key
generation (line 98) does not touch the modelled state. -/
def NewNode (h : String → Int) (args : Arguments) : Node :=
  let address : NodeAddress := args.Address ++ ":" ++ toString args.Port
  let name := if args.ClientName = "Default" then address else args.ClientName
  let node : Node :=
    { Name := name
      Identifier := h name % hashMod
      Address := address
      FingerTable := List.replicate fingerTableSize { Id := 0, Address := "" }
      next := -1
      Predecessor := ""
      Successors := List.replicate args.Successors "" }
  initSuccessors (initFingerTable node)

/-- The slot that the next `fixFingers` invocation targets: lines
411-414 advance `node.next` by one and wrap to 0 past
`fingerTableSize - 1`. -/
def fixFingersNextSlot (node : Node) : Int :=
  let nx := node.next + 1
  if nx > (fingerTableSize : Int) - 1 then 0 else nx

/-- C6: `NewNode` produces the state the spec describes: name from the
client label with fallback to the address, identifier `hash(name) mod
2^m`, finger slots `(identifier + 2^i) mod 2^m` all pointing at self,
successor list of length `r` full of empty sentinels, empty
predecessor, and a next-finger index that makes the first `fixFingers`
call target slot 0. -/
theorem newNode_matches_spec (h : String → Int) (args : Arguments) :
    (NewNode h args).Name = (if args.ClientName = "Default"
        then args.Address ++ ":" ++ toString args.Port else args.ClientName)
    ∧ (NewNode h args).Identifier = h (NewNode h args).Name % 2 ^ chordM
    ∧ (NewNode h args).FingerTable = (List.range chordM).map (fun i =>
        { Id := ((NewNode h args).Identifier + 2 ^ i) % 2 ^ chordM
          Address := (NewNode h args).Address })
    ∧ (NewNode h args).Successors = List.replicate args.Successors ""
    ∧ (NewNode h args).Predecessor = ""
    ∧ fixFingersNextSlot (NewNode h args) = 0 := by
  refine ⟨rfl, rfl, ?_, ?_, rfl, ?_⟩
  · simp [NewNode, initFingerTable, initSuccessors, fingerTableSize,
      chordM, hashMod]
  · simp [NewNode, initFingerTable, initSuccessors]
  · simp [NewNode, initFingerTable, initSuccessors, fixFingersNextSlot,
      fingerTableSize]

/-! ## setPredecessor and its RPC wrapper (tools.go lines 168-178) -/

/-- `func (node *Node) setPredecessor(...) *bool` (lines 168-172):
stores the address and returns a pointer to a fresh `true`. -/
def setPredecessor (node : Node) (predecessorAddress : NodeAddress) :
    Node × Bool :=
  ({ node with Predecessor := predecessorAddress }, true)

/-- `func (node *Node) SetPredecessorRPC(...)` (lines 174-178).  Line
176 is `reply = node.setPredecessor(predecessorAddress)`: it reassigns
the handler's local copy of the reply pointer instead of writing
through it, so the reply cell allocated by the RPC server keeps the
value it held before the handler ran.  The model threads that cell
explicitly. -/
def SetPredecessorRPC (node : Node) (predecessorAddress : NodeAddress)
    (replyCell : Bool) : Node × Bool :=
  let r := setPredecessor node predecessorAddress
  (r.1, replyCell)

/-- The full wire round trip: `net/rpc` allocates the server-side reply
cell at the Go zero value `false`, runs the handler, and ships the cell
back; `joinChord` (lines 155-165) reads exactly this value into its
local `reply` and reports success only when it is `true`. -/
def setPredecessorWireReply (node : Node) (addr : NodeAddress) :
    Node × Bool :=
  SetPredecessorRPC node addr false

/-- C10: `SetPredecessorRPC` always installs the given predecessor, the
handler never writes the caller's reply cell, and the value that comes
back over the wire — the value `joinChord` tests — is always `false`. -/
theorem setPredecessorRPC_updates_but_replies_false (node : Node)
    (addr : NodeAddress) (cell : Bool) :
    (SetPredecessorRPC node addr cell).1.Predecessor = addr
    ∧ (SetPredecessorRPC node addr cell).2 = cell
    ∧ (setPredecessorWireReply node addr).2 = false := by
  exact ⟨rfl, rfl, rfl⟩

/-! ## notify and NotifyRPC (tools.go lines 356-386) -/

/-- `func (node *Node) notify(address NodeAddress) *bool` (lines
356-379).  The first component models the returned `*bool`: `none` is
the `nil` returned when either `GetNameRPC` call fails (and dialing the
empty predecessor address always fails).  The second component is the
node state after the call. -/
def notify (env : ChordEnv) (h : String → Int) (node : Node)
    (address : NodeAddress) : Option Bool × Node :=
  match callGetName env node.Predecessor with
  | none => (none, node)
  | some predecessorName =>
    match callGetName env address with
    | none => (none, node)
    | some addressName =>
      if node.Predecessor = ""
          ∨ between (h predecessorName) (h addressName) (h node.Name) false
            = true then
        (some true, { node with Predecessor := address })
      else
        (some true, node)

/-- `func (node *Node) NotifyRPC(...)` (lines 382-386): line 384 is
`*reply = *node.notify(*address)`, which dereferences the pointer
returned by `notify`; when that pointer is `nil` the handler panics,
modelled as `none`. -/
def NotifyRPC (env : ChordEnv) (h : String → Int) (node : Node)
    (address : NodeAddress) : Option (Bool × Node) :=
  match notify env h node address with
  | (none, _) => none
  | (some b, node1) => some (b, node1)

/-- Concrete state for exercising `notify` with an empty predecessor:
the candidate `"cand:2"` is reachable and would be adopted per the
spec. -/
def nodeOfC2 : Node :=
  { Name := "self"
    Identifier := 0
    Address := "self:1"
    FingerTable := []
    next := -1
    Predecessor := ""
    Successors := ["succ:1"] }

def envOfC2 : ChordEnv :=
  { getName := fun a => if a = "cand:2" then some "candname" else none
    getSuccessorList := fun _ => none
    getPredecessor := fun _ => none
    findSuccessor := fun _ _ => none }

def hashOfC2 : String → Int := fun s => (s.length : Int)

/-- C2 evaluated at the failing input: with an empty predecessor the
handler leaves the predecessor empty (the `GetNameRPC` call on the
empty predecessor address fails first, so `notify` bails out with
`nil`), although the claim — and the Chord pseudocode quoted in the
function's own comment — demands that the candidate be adopted. -/
theorem notify_empty_predecessor_never_adopts :
    (notify envOfC2 hashOfC2 nodeOfC2 "cand:2").2.Predecessor = ""
    ∧ (notify envOfC2 hashOfC2 nodeOfC2 "cand:2").2 = nodeOfC2 := by
  exact ⟨rfl, rfl⟩

/-- Concrete state for exercising `NotifyRPC` totality: predecessor
empty, candidate `"cand:9"` reachable. -/
def nodeOfC9 : Node :=
  { Name := "me"
    Identifier := 3
    Address := "me:1"
    FingerTable := []
    next := -1
    Predecessor := ""
    Successors := ["s:1"] }

def envOfC9 : ChordEnv :=
  { getName := fun a => if a = "cand:9" then some "cn" else none
    getSuccessorList := fun _ => none
    getPredecessor := fun _ => none
    findSuccessor := fun _ _ => none }

def hashOfC9 : String → Int := fun s => (s.length : Int)

/-- C9 evaluated at the failing input: in the empty-predecessor state
the `notify` helper returns `nil` (`none`), so `NotifyRPC`'s dereference
`*node.notify(*address)` panics — the handler is not total, contrary to
the claim. -/
theorem notifyRPC_nil_dereference_on_empty_predecessor :
    (notify envOfC9 hashOfC9 nodeOfC9 "cand:9").1 = none
    ∧ NotifyRPC envOfC9 hashOfC9 nodeOfC9 "cand:9" = none := by
  exact ⟨rfl, rfl⟩

/-! ## closePrecedingNode (tools.go lines 505-516) -/

/-- The test applied to finger slot `i` by `closePrecedingNode`: the
slot's address is resolved to a name over the network (a failed
`GetNameRPC` leaves the name `""`, its error is ignored), and the raw
hash of that name is checked against the arc with `inclusive = true`
(line 511). -/
def fingerQualifies (env : ChordEnv) (h : String → Int) (node : Node)
    (requestID : Int) (inclusive : Bool) (i : Nat) : Bool :=
  between node.Identifier
    (h (resolveName env (node.FingerTable.getD i ⟨0, ""⟩).Address))
    requestID inclusive

/-- The loop of `closePrecedingNode` (lines 508-514): index `k` is
examined, then `k - 1`, ..., down to 1; slot 0 is never examined and
the fallback (line 515) is `node.Successors[0]` (Go would panic on an
empty slice; the model returns `""`, a state the callers never build
since the successor list length is validated to be at least 1). -/
def closePrecedingNodeLoop (env : ChordEnv) (h : String → Int)
    (node : Node) (requestID : Int) : Nat → NodeAddress
  | 0 => node.Successors.headD ""
  | k + 1 =>
    if fingerQualifies env h node requestID true (k + 1) then
      (node.FingerTable.getD (k + 1) ⟨0, ""⟩).Address
    else
      closePrecedingNodeLoop env h node requestID k

/-- `func (node *Node) closePrecedingNode(requestID)` (lines 505-516):
starts at `len(node.FingerTable) - 1`. -/
def closePrecedingNode (env : ChordEnv) (h : String → Int) (node : Node)
    (requestID : Int) : NodeAddress :=
  closePrecedingNodeLoop env h node requestID (node.FingerTable.length - 1)

/-- The scan as the spec words it: look at the finger slots from
`m - 1` down to `1`, return the address of the first slot whose current
identity lies on the arc from the node's identifier to `requestID`
(strict arc for `inclusive = false`, which is the claim's reading;
arc closed at `requestID` for `inclusive = true`), falling back to
`successors[0]`. -/
def closePrecedingNodeScan (inclusive : Bool) (env : ChordEnv)
    (h : String → Int) (node : Node) (requestID : Int) : NodeAddress :=
  match (List.range' 1 (node.FingerTable.length - 1)).reverse.find?
      (fingerQualifies env h node requestID inclusive) with
  | some i => (node.FingerTable.getD i ⟨0, ""⟩).Address
  | none => node.Successors.headD ""

theorem closePrecedingNodeLoop_eq_scan (env : ChordEnv)
    (h : String → Int) (node : Node) (requestID : Int) (k : Nat) :
    closePrecedingNodeLoop env h node requestID k
      = (match (List.range' 1 k).reverse.find?
            (fingerQualifies env h node requestID true) with
        | some i => (node.FingerTable.getD i ⟨0, ""⟩).Address
        | none => node.Successors.headD "") := by
  induction k with
  | zero => rfl
  | succ n ih =>
    have hrange : (List.range' 1 (n + 1)).reverse
        = (n + 1) :: (List.range' 1 n).reverse := by
      rw [List.range'_1_concat, List.reverse_append]
      simp [Nat.add_comm 1 n]
    rw [hrange]
    cases hq : fingerQualifies env h node requestID true (n + 1) with
    | true => simp [closePrecedingNodeLoop, List.find?_cons, hq]
    | false => simp [closePrecedingNodeLoop, List.find?_cons, hq, ih]

/-- C3 amended: `closePrecedingNode` scans the finger table from slot
`m - 1` down to slot 1 and returns the first finger whose current
identity lies on the arc from the node's identifier to `id` **closed at
`id`** (the code passes `inclusive = true`, so a finger whose identity
equals `id` qualifies); if no finger qualifies it returns
`successors[0]`. -/
theorem closePrecedingNode_first_qualifying_finger (env : ChordEnv)
    (h : String → Int) (node : Node) (requestID : Int) :
    closePrecedingNode env h node requestID
      = closePrecedingNodeScan true env h node requestID := by
  unfold closePrecedingNode closePrecedingNodeScan
  exact closePrecedingNodeLoop_eq_scan env h node requestID
    (node.FingerTable.length - 1)

/-- Concrete node for refuting the strictness part of C3: identifier
10, finger slot 5 resolves to a name whose hash equals the request id
20, every other finger resolves outside the arc, and `successors[0]`
is a different address. -/
def nodeOfC3 : Node :=
  { Name := "self3"
    Identifier := 10
    Address := "self3:1"
    FingerTable :=
      [⟨11, "f0:0"⟩, ⟨12, "f1:1"⟩, ⟨14, "f2:2"⟩,
       ⟨18, "f3:3"⟩, ⟨26, "f4:4"⟩, ⟨42, "f5:5"⟩]
    next := -1
    Predecessor := ""
    Successors := ["s0:0"] }

def envOfC3 : ChordEnv :=
  { getName := fun a =>
      if a = "f5:5" then some "n5"
      else if a = "f4:4" then some "n4"
      else if a = "f3:3" then some "n3"
      else if a = "f2:2" then some "n2"
      else if a = "f1:1" then some "n1"
      else none
    getSuccessorList := fun _ => none
    getPredecessor := fun _ => none
    findSuccessor := fun _ _ => none }

def hashOfC3 : String → Int := fun s => if s = "n5" then 20 else 30

/-- Counterexample to C3: on `nodeOfC3` with request id 20, the code
returns finger 5 — whose identity is exactly the request id, hence not
strictly inside the open arc `(10, 20)` — while the strict scan the
claim describes skips every finger and falls back to `successors[0]`,
a different address. -/
theorem closePrecedingNode_not_strict :
    closePrecedingNode envOfC3 hashOfC3 nodeOfC3 20 = "f5:5"
    ∧ closePrecedingNodeScan false envOfC3 hashOfC3 nodeOfC3 20 = "s0:0"
    ∧ ("f5:5" : NodeAddress) ≠ "s0:0" := by
  refine ⟨rfl, rfl, by decide⟩

/-! ## find (tools.go lines 520-545) -/

/-- `maxSteps := 10` (line 525).  The adjacent comment says
`// 2^maxSteps`, but the loop condition `i < maxSteps` bounds the hop
count by 10 itself. -/
def maxSteps : Nat := 10

/-- The loop of `find` (lines 526-537): while not found and fuel
remains, call `FindSuccessorRPC` on the current hop; a transport error
breaks out of the loop with the current flags. -/
def findLoop (env : ChordEnv) (id : Int) :
    Nat → Bool → NodeAddress → Bool × NodeAddress
  | 0, found, nextNode => (found, nextNode)
  | fuel + 1, found, nextNode =>
    if found then (found, nextNode)
    else
      match callFindSuccessor env nextNode id with
      | none => (found, nextNode)
      | some (f, a) => findLoop env id fuel f a

/-- `func find(id *big.Int, startNode NodeAddress) NodeAddress` (lines
520-545): run the loop from `found = false`, then return the last
reported successor address on success and the sentinel `"-1"`
otherwise. -/
def find (env : ChordEnv) (id : Int) (startNode : NodeAddress) :
    NodeAddress :=
  let r := findLoop env id maxSteps false startNode
  if r.1 then r.2 else "-1"

/-- The iterative lookup as the spec words it, with the hop budget as a
parameter: repeatedly call `FindSuccessorRPC` on the current hop,
return the reported address as soon as a hop reports `found`, abort
with the sentinel on a transport error, and give up with the sentinel
when the budget is exhausted. -/
def findSpec (env : ChordEnv) (id : Int) : Nat → NodeAddress → NodeAddress
  | 0, _ => "-1"
  | bound + 1, current =>
    match callFindSuccessor env current id with
    | none => "-1"
    | some (true, a) => a
    | some (false, a) => findSpec env id bound a

theorem findLoop_found (env : ChordEnv) (id : Int) (fuel : Nat)
    (a : NodeAddress) : findLoop env id fuel true a = (true, a) := by
  cases fuel with
  | zero => rfl
  | succ n => rfl

theorem findLoop_eq_findSpec (env : ChordEnv) (id : Int) (fuel : Nat) :
    ∀ nextNode : NodeAddress,
      (let r := findLoop env id fuel false nextNode
       if r.1 then r.2 else "-1") = findSpec env id fuel nextNode := by
  induction fuel with
  | zero => intro nextNode; rfl
  | succ n ih =>
    intro nextNode
    show (let r := findLoop env id (n + 1) false nextNode
          if r.1 then r.2 else "-1") = findSpec env id (n + 1) nextNode
    unfold findLoop findSpec
    cases hc : callFindSuccessor env nextNode id with
    | none => rfl
    | some p =>
      obtain ⟨f, a⟩ := p
      cases f with
      | true => simp [findLoop_found]
      | false => simpa using ih a

/-- C4 amended: `find` follows the spec's iteration — stop with the
reported address as soon as a hop reports `found = true`, abort with
the sentinel `"-1"` on any transport error — but its hop budget is
`maxSteps = 10` itself, not `2^maxSteps`. -/
theorem find_eq_ten_hop_lookup (env : ChordEnv) (id : Int)
    (startNode : NodeAddress) :
    find env id startNode = findSpec env id 10 startNode := by
  unfold find maxSteps
  exact findLoop_eq_findSpec env id 10 startNode

/-- An 11-hop chain: nodes `v0, ..., v9` each point at the next one
with `found = false`, and `v10` reports `found = true` with the answer
`done:1`. -/
def chainOfC4 : List (String × (Bool × String)) :=
  [("v0", (false, "v1")), ("v1", (false, "v2")), ("v2", (false, "v3")),
   ("v3", (false, "v4")), ("v4", (false, "v5")), ("v5", (false, "v6")),
   ("v6", (false, "v7")), ("v7", (false, "v8")), ("v8", (false, "v9")),
   ("v9", (false, "v10")), ("v10", (true, "done:1"))]

def envOfC4 : ChordEnv :=
  { getName := fun _ => none
    getSuccessorList := fun _ => none
    getPredecessor := fun _ => none
    findSuccessor := fun a _ => chainOfC4.lookup a }

/-- Counterexample to C4: on the 11-hop chain the code gives up with
the sentinel after its 10 allowed hops, while a lookup with the
claimed budget of `2^10 = 1024` hops succeeds — so `find` does not
perform up to 1024 hops. -/
theorem find_gives_up_before_1024_hops :
    find envOfC4 0 "v0" = "-1"
    ∧ findSpec envOfC4 0 1024 "v0" = "done:1"
    ∧ ("-1" : NodeAddress) ≠ "done:1" := by
  refine ⟨rfl, rfl, by decide⟩

/-! ## stabilize (tools.go lines 276-335) -/

/-- The successful refresh of part (i) of `stabilize` (lines 286-289):
`node.Successors[i+1] = remote[i]` for `i < len(remote) - 1`, slot 0
untouched.  (Go would panic when `i + 1` falls outside the local list;
`List.set` ignores such writes — the lists in play share the
configured length `r`.) -/
def copyRemoteSuccessors (old remote : List NodeAddress) :
    List NodeAddress :=
  (List.range (remote.length - 1)).foldl
    (fun acc i => acc.set (i + 1) (remote.getD i "")) old

/-- The failure shift of part (i) (lines 300-306): every slot takes the
next slot's value and the last slot becomes empty. -/
def shiftSuccessorsLeft (l : List NodeAddress) : List NodeAddress :=
  (List.range l.length).map fun i =>
    if i = l.length - 1 then "" else l.getD (i + 1) ""

/-- The successor list produced by one run of
`func (node *Node) stabilize()` (lines 276-335).  Part (i): refresh
from `GetSuccessorListRPC` on `successors[0]`, or on failure either
self-assign (when `successors[0]` is already empty, lines 294-296) or
shift left (lines 300-306).  Part (ii) (lines 309-327): adopt the
successor's predecessor as `successors[0]` when it lies strictly on
the arc; any failed call ends the run with no further change.  Part
(iii), the outbound notify (line 329), does not change local state. -/
def stabilizeSuccessors (env : ChordEnv) (h : String → Int)
    (node : Node) : List NodeAddress :=
  let succs1 :=
    match callGetSuccessorList env (node.Successors.headD "") with
    | some remote => copyRemoteSuccessors node.Successors remote
    | none =>
      if node.Successors.headD "" = "" then
        node.Successors.set 0 node.Address
      else
        shiftSuccessorsLeft node.Successors
  match callGetPredecessor env (succs1.headD "") with
  | none => succs1
  | some predecessor =>
    match callGetName env (succs1.headD "") with
    | none => succs1
    | some successorName =>
      match callGetName env predecessor with
      | none => succs1
      | some predecessorName =>
        if predecessor ≠ ""
            ∧ between (h node.Name) (h predecessorName)
                (h successorName) false = true then
          succs1.set 0 predecessor
        else succs1

/-- A node holding one live successor followed by empty slots, whose
successor then stops answering `GetSuccessorListRPC`. -/
def nodeOfC5 : Node :=
  { Name := "self5"
    Identifier := 7
    Address := "self5:1"
    FingerTable := []
    next := -1
    Predecessor := ""
    Successors := ["a:1", "", ""] }

def envOfC5 : ChordEnv :=
  { getName := fun _ => none
    getSuccessorList := fun _ => none
    getPredecessor := fun _ => none
    findSuccessor := fun _ _ => none }

def hashOfC5 : String → Int := fun s => (s.length : Int)

/-- C5 evaluated at the failing input: when `GetSuccessorListRPC` on
the sole live successor `a:1` fails, the code shifts
`["a:1", "", ""]` to `["", "", ""]` and stops — the emptiness check
happens before the shift (on the old `successors[0]`), not after it,
so the now-empty list is not pointed at the node's own address as the
claim (and the spec's declared intent) requires. -/
theorem stabilize_shift_leaves_list_empty :
    stabilizeSuccessors envOfC5 hashOfC5 nodeOfC5 = ["", "", ""]
    ∧ nodeOfC5.Address = "self5:1"
    ∧ ("" : NodeAddress) ≠ "self5:1" := by
  refine ⟨rfl, rfl, by decide⟩
